import Mathlib

/-!
Shallow embedding of `socorro/processor/processor_pipeline.py`
(`ProcessorPipeline`: `__init__`, `get_ruleset`, `process_crash`, `close`)
and verification of the specification's claims about it.

Modelling conventions:
- Python dict-like records become structures with `Option` fields (a `none`
  field models an absent key).
- Timestamps are opaque strings (`utc_now()` is passed in as a parameter,
  once for the start assignment and once for the completion assignment).
- A Python exception is modelled by its class name, its message, and a flag
  `isException` recording whether its class is a subclass of `builtins.Exception`
  (the class caught by the executor's `except Exception` clause); exceptions
  such as `KeyboardInterrupt`/`SystemExit` derive only from `BaseException`
  and have `isException = false`.
- A rule's `act` mutates the processed crash and the metadata note list in
  place and may raise; this is modelled as a total function returning the
  (possibly mutated) record and note list together with an optional raised
  exception, so that mutations performed before a raise are preserved.
- `sentry_client.capture_error` and logging are external fire-and-forget
  collaborators with no effect on pipeline state; they are not modelled.
-/

/-- Timestamps are opaque; `utc_now()` values are threaded in as parameters. -/
abbrev Timestamp := String

/-- A raw crash is a string-keyed mapping (`raw_crash["uuid"]` is a lookup). -/
abbrev RawCrash := List (String × String)

/-- The raw dumps mapping; `process_crash` only passes it through to rules. -/
abbrev RawDumps := List (String × String)

/-- A Python exception as the executor observes it: its class name, its
message, and whether its class derives from `builtins.Exception` (and hence is
caught by `except Exception`). -/
structure Exc where
  className : String
  message : String
  isException : Bool
deriving Repr, DecidableEq

/-- Python's `MemoryError` is a subclass of `builtins.Exception`
(`MemoryError → OSError-independent → Exception → BaseException` chain:
`MemoryError.__mro__ = (MemoryError, Exception, BaseException, object)`),
so the executor's `except Exception` clause catches it. -/
def memoryError (msg : String) : Exc :=
  { className := "MemoryError", message := msg, isException := true }

/-- Python's `KeyboardInterrupt` derives only from `BaseException`, not from
`builtins.Exception`, so `except Exception` does not catch it. -/
def keyboardInterrupt : Exc :=
  { className := "KeyboardInterrupt", message := "", isException := false }

/-- The processed crash record. Fields owned by the pipeline are explicit;
`extra` holds fields written by individual rules. An `Option` field models
presence of the corresponding key in the underlying dict. -/
structure ProcessedCrash where
  success : Option Bool := none
  started_datetime : Option Timestamp := none
  startedDateTime : Option Timestamp := none
  completed_datetime : Option Timestamp := none
  completeddatetime : Option Timestamp := none
  signature : Option String := none
  processor_notes : Option String := none
  extra : List (String × String) := []
deriving Repr, DecidableEq

/-- Result of one `rule.act(raw_crash, raw_dumps, processed_crash,
processor_meta_data)` call: the record and note list after the call's
in-place mutations, plus the exception it raised, if any. -/
structure ActResult where
  processed : ProcessedCrash
  notes : List String
  exc : Option Exc

/-- A rule as the executor sees it: its class name (used in failure notes and
`close` logging) and its `act` behaviour. -/
structure Rule where
  name : String
  act : RawCrash → RawDumps → ProcessedCrash → List String → ActResult

/-- The note appended when a rule raises an exception caught by
`except Exception`: `"rule %s failed: %s" % (rule.__class__.__name__,
exc.__class__.__name__)` — the exception's class name, never its message. -/
def failureNote (ruleName : String) (e : Exc) : String :=
  "rule " ++ ruleName ++ " failed: " ++ e.className

/-- Outcome of `process_crash`: normal return, the `KeyError` raised by
`raw_crash["uuid"]` when the key is absent, or a propagated exception that
`except Exception` did not catch. Each non-`ok` outcome carries the processed
record as mutated so far (mutations are in place and survive the raise).
`invoked` lists, in order, the names of the rules whose `act` was entered. -/
inductive PCResult where
  | ok (processed : ProcessedCrash) (invoked : List String)
  | keyErrorUuid (processed : ProcessedCrash)
  | raised (e : Exc) (processed : ProcessedCrash) (invoked : List String)
deriving Repr, DecidableEq

/-- The rule loop of `process_crash` (lines 270-285): apply each rule in
order; catch any exception whose class derives from `Exception`, appending a
`failureNote`, and continue; let any other exception propagate. -/
def runRules (raw : RawCrash) (dumps : RawDumps) :
    List Rule → ProcessedCrash → List String → List String →
    Except (Exc × ProcessedCrash × List String)
      (ProcessedCrash × List String × List String)
  | [], pc, notes, invoked => .ok (pc, notes, invoked)
  | r :: rs, pc, notes, invoked =>
    let res := r.act raw dumps pc notes
    match res.exc with
    | none => runRules raw dumps rs res.processed res.notes (invoked ++ [r.name])
    | some e =>
      if e.isException then
        runRules raw dumps rs res.processed
          (res.notes ++ [failureNote r.name e]) (invoked ++ [r.name])
      else
        .error (e, res.processed, invoked ++ [r.name])

/-- Lines 258-262 of `process_crash`: before any rule runs, mark the record
unsuccessful, stamp the start time (and its backwards-compatibility
duplicate), and set the sentinel signature. -/
def initForProcessing (pc : ProcessedCrash) (now : Timestamp) : ProcessedCrash :=
  { pc with
    success := some false
    started_datetime := some now
    startedDateTime := some now
    signature := some "EMPTY: crash failed to process" }

/-- Configuration values `process_crash` reads (`self.config.processor_name`). -/
structure BreakpadConfig where
  dump_field : String
  command_pathname : String
  symbols_urls : List String
  command_line : String
  kill_timeout : Nat
  symbol_tmp_path : String
  symbol_cache_path : String
  tmp_storage_path : String
deriving Repr, DecidableEq

/-- The `jit` option namespace of the required configuration. -/
structure JitConfig where
  kill_timeout : Nat
  dump_field : String
  command_pathname : String
  command_line : String
deriving Repr, DecidableEq

/-- The `betaversion` option namespace of the required configuration. -/
structure BetaversionConfig where
  version_string_api : String
deriving Repr, DecidableEq

/-- The configuration a `ProcessorPipeline` is constructed with: the option
namespaces declared in `required_config` plus `processor_name`, which
`process_crash` reads from the application-level config. -/
structure Config where
  processor_name : String
  breakpad : BreakpadConfig
  jit : JitConfig
  betaversion : BetaversionConfig
deriving Repr, DecidableEq

/-- Lines 240-256: seed `processor_meta_data.processor_notes` with the
processor name and the class name, and, when the record already carries
`processor_notes` (reprocessing), add an `"earlier processing: ..."` marker
that formats `processed_crash.get("started_datetime", "Unknown Date")`. -/
def seedNotes (config : Config) (pc : ProcessedCrash) : List String :=
  let base := [config.processor_name, "ProcessorPipeline"]
  match pc.processor_notes with
  | some _ =>
    base ++ ["earlier processing: " ++ pc.started_datetime.getD "Unknown Date"]
  | none => base

/-- Python `str.split(sep)` for a one-character separator, on the character
list: splitting never drops empty pieces (`"".split(";") == [""]`). -/
def splitCharAux (sep : Char) : List Char → List Char → List (List Char)
  | [], acc => [acc.reverse]
  | c :: cs, acc =>
    if c = sep then acc.reverse :: splitCharAux sep cs []
    else splitCharAux sep cs (c :: acc)

/-- Python `s.split(";")` (the one-character-separator case used at line 249). -/
def pySplit (sep : Char) (s : String) : List String :=
  (splitCharAux sep s.data []).map String.mk

/-- Python `str.strip()`: remove leading and trailing whitespace. -/
def pyStrip (s : String) : String :=
  String.mk (((s.data.dropWhile Char.isWhitespace).reverse.dropWhile
    Char.isWhitespace).reverse)

/-- Lines 247-256: when the record already carries `processor_notes`, split
the string on `";"` and strip each piece; these entries are re-appended after
the current run's notes. -/
def originalNotes (pc : ProcessedCrash) : List String :=
  match pc.processor_notes with
  | some s => (pySplit ';' s).map pyStrip
  | none => []

/-- The method `ProcessorPipeline.process_crash(raw_crash, raw_dumps, processed_crash)`.
`tStart` and `tComplete` are the two `utc_now()` results (lines 259 and 295). -/
def process_crash (config : Config) (rules : List Rule) (raw : RawCrash)
    (dumps : RawDumps) (pc : ProcessedCrash) (tStart tComplete : Timestamp) :
    PCResult :=
  let notes0 := seedNotes config pc
  let original := originalNotes pc
  let pc0 := initForProcessing pc tStart
  match raw.lookup "uuid" with
  | none => .keyErrorUuid pc0
  | some _ =>
    match runRules raw dumps rules pc0 notes0 [] with
    | .error (e, pc1, invoked) => .raised e pc1 invoked
    | .ok (pc1, notes1, invoked) =>
      let pc2 := { pc1 with success := some true }
      let pc3 := { pc2 with
        processor_notes := some (String.intercalate "; " (notes1 ++ original))
        completed_datetime := some tComplete
        completeddatetime := some tComplete }
      .ok pc3 invoked

/-- One entry of the ruleset built by `get_ruleset`: a rule class together
with the constructor arguments it receives from the configuration. -/
inductive RulesetEntry where
  | DeNullRule
  | DeNoneRule
  | ConvertModuleSignatureInfoRule
  | ProductRewrite
  | FenixVersionRewriteRule
  | ESRVersionRewrite
  | PluginContentURL
  | PluginUserComment
  | IdentifierRule
  | MinidumpSha256Rule
  | BreakpadStackwalkerRule2015 (dump_field : String) (symbols_urls : List String)
      (command_line : String) (command_pathname : String) (kill_timeout : Nat)
      (symbol_tmp_path : String) (symbol_cache_path : String)
      (tmp_storage_path : String)
  | ProductRule
  | UserDataRule
  | EnvironmentRule
  | PluginRule
  | AddonsRule
  | DatesAndTimesRule
  | OutOfMemoryBinaryRule
  | PHCRule
  | JavaProcessRule
  | MozCrashReasonRule
  | CrashingThreadRule
  | CPUInfoRule
  | OSInfoRule
  | BetaVersionRule (version_string_api : String)
  | ExploitablityRule
  | FlashVersionRule
  | OSPrettyVersionRule
  | TopMostFilesRule
  | ModulesInStackRule
  | ThemePrettyNameRule
  | MemoryReportExtraction
  | SignatureGeneratorRule
  | JitCrashCategorizeRule (dump_field : String) (command_line : String)
      (command_pathname : String) (kill_timeout : Nat)
deriving Repr, DecidableEq

/-- The class name of a ruleset entry. -/
def RulesetEntry.name : RulesetEntry → String
  | .DeNullRule => "DeNullRule"
  | .DeNoneRule => "DeNoneRule"
  | .ConvertModuleSignatureInfoRule => "ConvertModuleSignatureInfoRule"
  | .ProductRewrite => "ProductRewrite"
  | .FenixVersionRewriteRule => "FenixVersionRewriteRule"
  | .ESRVersionRewrite => "ESRVersionRewrite"
  | .PluginContentURL => "PluginContentURL"
  | .PluginUserComment => "PluginUserComment"
  | .IdentifierRule => "IdentifierRule"
  | .MinidumpSha256Rule => "MinidumpSha256Rule"
  | .BreakpadStackwalkerRule2015 _ _ _ _ _ _ _ _ => "BreakpadStackwalkerRule2015"
  | .ProductRule => "ProductRule"
  | .UserDataRule => "UserDataRule"
  | .EnvironmentRule => "EnvironmentRule"
  | .PluginRule => "PluginRule"
  | .AddonsRule => "AddonsRule"
  | .DatesAndTimesRule => "DatesAndTimesRule"
  | .OutOfMemoryBinaryRule => "OutOfMemoryBinaryRule"
  | .PHCRule => "PHCRule"
  | .JavaProcessRule => "JavaProcessRule"
  | .MozCrashReasonRule => "MozCrashReasonRule"
  | .CrashingThreadRule => "CrashingThreadRule"
  | .CPUInfoRule => "CPUInfoRule"
  | .OSInfoRule => "OSInfoRule"
  | .BetaVersionRule _ => "BetaVersionRule"
  | .ExploitablityRule => "ExploitablityRule"
  | .FlashVersionRule => "FlashVersionRule"
  | .OSPrettyVersionRule => "OSPrettyVersionRule"
  | .TopMostFilesRule => "TopMostFilesRule"
  | .ModulesInStackRule => "ModulesInStackRule"
  | .ThemePrettyNameRule => "ThemePrettyNameRule"
  | .MemoryReportExtraction => "MemoryReportExtraction"
  | .SignatureGeneratorRule => "SignatureGeneratorRule"
  | .JitCrashCategorizeRule _ _ _ _ => "JitCrashCategorizeRule"

/-- The method `ProcessorPipeline.get_ruleset(config)` (lines 171-228): the fixed
ordered ruleset for Mozilla crash processing. -/
def get_ruleset (config : Config) : List RulesetEntry :=
  [ -- fix the raw crash removing null characters and Nones
    .DeNullRule,
    .DeNoneRule,
    -- fix ModuleSignatureInfo if it needs fixing
    .ConvertModuleSignatureInfoRule,
    -- rules to change the internals of the raw crash
    .ProductRewrite,
    .FenixVersionRewriteRule,
    .ESRVersionRewrite,
    .PluginContentURL,
    .PluginUserComment,
    -- rules to transform a raw crash into a processed crash
    .IdentifierRule,
    .MinidumpSha256Rule,
    .BreakpadStackwalkerRule2015 config.breakpad.dump_field
      config.breakpad.symbols_urls config.breakpad.command_line
      config.breakpad.command_pathname config.breakpad.kill_timeout
      config.breakpad.symbol_tmp_path config.breakpad.symbol_cache_path
      config.breakpad.tmp_storage_path,
    .ProductRule,
    .UserDataRule,
    .EnvironmentRule,
    .PluginRule,
    .AddonsRule,
    .DatesAndTimesRule,
    .OutOfMemoryBinaryRule,
    .PHCRule,
    .JavaProcessRule,
    .MozCrashReasonRule,
    -- post processing of the processed crash
    .CrashingThreadRule,
    .CPUInfoRule,
    .OSInfoRule,
    .BetaVersionRule config.betaversion.version_string_api,
    .ExploitablityRule,
    .FlashVersionRule,
    .OSPrettyVersionRule,
    .TopMostFilesRule,
    .ModulesInStackRule,
    .ThemePrettyNameRule,
    .MemoryReportExtraction,
    -- generate signature now that we've done all the processing it depends on
    .SignatureGeneratorRule,
    -- a set of classifiers to help with jit crashes--must be last since it
    -- depends on signature generation
    .JitCrashCategorizeRule config.jit.dump_field config.jit.command_line
      config.jit.command_pathname config.jit.kill_timeout ]

/-- The constructor `ProcessorPipeline.__init__` (line 159):
`self.rules = rules or self.get_ruleset(config)`. The `rules` argument
defaults to `None`; a supplied empty list is falsy in Python, so both `None`
and `[]` fall back to the default ruleset. -/
def initRules (config : Config) (rules : Option (List RulesetEntry)) :
    List RulesetEntry :=
  match rules with
  | none => get_ruleset config
  | some rs => if rs = [] then get_ruleset config else rs

/-- A constructed pipeline object: its configuration and its rule instances. -/
structure Pipeline where
  config : Config
  rules : List Rule

/-- The method `ProcessorPipeline.close` (lines 311-314): call `rule.close()` on each
rule, in order. The result is the trace of `close()` invocations, by rule
class name. -/
def Pipeline.close (p : Pipeline) : List String :=
  p.rules.map Rule.name

/-- A note recording the pipeline-owned fields of the record a rule receives;
used to observe the state the executor hands to a rule. -/
def probeNote (p : ProcessedCrash) : String :=
  "success=" ++ reprStr p.success ++
  ",started_datetime=" ++ reprStr p.started_datetime ++
  ",startedDateTime=" ++ reprStr p.startedDateTime ++
  ",signature=" ++ reprStr p.signature

/-- A rule that records, into the metadata notes, the pipeline-owned fields of
the processed record it receives, and succeeds without mutating the record. -/
def probeRule : Rule :=
  { name := "ProbeRule"
    act := fun _ _ p n => { processed := p, notes := n ++ [probeNote p], exc := none } }

/-- A rule whose `act` returns normally and mutates nothing. -/
def okRule (nm : String) : Rule :=
  { name := nm, act := fun _ _ p n => { processed := p, notes := n, exc := none } }

/-- A rule whose `act` always raises the given exception, mutating nothing. -/
def raiseRule (nm : String) (e : Exc) : Rule :=
  { name := nm, act := fun _ _ p n => { processed := p, notes := n, exc := some e } }

/-- A concrete configuration mirroring the documented option defaults. -/
def cfgA : Config :=
  { processor_name := "proc1"
    breakpad :=
      { dump_field := "upload_file_minidump"
        command_pathname := "/stackwalk/stackwalker"
        symbols_urls := ["https://localhost"]
        command_line := "timeout --signal KILL 600 /stackwalk/stackwalker"
        kill_timeout := 600
        symbol_tmp_path := "/tmp/symbols-tmp"
        symbol_cache_path := "/tmp/symbols"
        tmp_storage_path := "/tmp" }
    jit :=
      { kill_timeout := 600
        dump_field := "upload_file_minidump"
        command_pathname := "/stackwalk/jit-crash-categorize"
        command_line := "timeout -s KILL 600 /stackwalk/jit-crash-categorize" }
    betaversion :=
      { version_string_api := "https://crash-stats.mozilla.org/api/VersionString" } }

/-- A raw crash carrying a `uuid` key. -/
def rawA : RawCrash := [("uuid", "abc-123")]

/-- A raw crash with no `uuid` key. -/
def rawNoUuid : RawCrash := [("ProductName", "Firefox")]

/-- A recoverable exception: `KeyError` derives from `Exception`. -/
def excKeyError : Exc :=
  { className := "KeyError", message := "product", isException := true }

/-- A concrete pipeline object with one succeeding and one failing rule. -/
def pipeA : Pipeline :=
  { config := cfgA, rules := [okRule "RuleA", raiseRule "RuleB" excKeyError] }

/-- A processed record carrying notes from an earlier run (reprocessing). -/
def pcReprocessed : ProcessedCrash := { processor_notes := some "A; B" }

/-- The three-rule pipeline of the reprocessing scenario: rule 2 fails. -/
def c3Rules : List Rule :=
  [okRule "R1", raiseRule "R2" excKeyError, okRule "R3"]

theorem data_append_eq (s t : String) : (s ++ t).data = s.data ++ t.data := rfl

/-- A failure note never collides with the seeded class-name note: it always
starts with `"rule "`. -/
theorem failureNote_ne_processorPipeline (nm : String) (e : Exc) :
    failureNote nm e ≠ "ProcessorPipeline" := by
  intro h
  have h2 : (failureNote nm e).data = "ProcessorPipeline".data := congrArg String.data h
  simp only [failureNote, data_append_eq] at h2
  simp [List.cons_append, List.append_assoc] at h2

/-- If every exception raised by the rules derives from `Exception`, the rule
loop completes, invoking every rule in order. -/
theorem runRules_all_recoverable (raw : RawCrash) (dumps : RawDumps) :
    ∀ (rules : List Rule),
      (∀ r ∈ rules, ∀ p n e, (r.act raw dumps p n).exc = some e →
        e.isException = true) →
      ∀ pc notes invoked, ∃ pc' notes',
        runRules raw dumps rules pc notes invoked =
          .ok (pc', notes', invoked ++ rules.map Rule.name) := by
  intro rules
  induction rules with
  | nil => intro _ pc notes invoked; exact ⟨pc, notes, by simp [runRules]⟩
  | cons r rs ih =>
    intro h pc notes invoked
    have hr := h r (List.mem_cons_self r rs)
    have hrs := fun r' h' => h r' (List.mem_cons_of_mem r h')
    simp only [runRules]
    rcases hx : (r.act raw dumps pc notes).exc with _ | e
    · obtain ⟨pc', notes', hrun⟩ := ih hrs (r.act raw dumps pc notes).processed
        (r.act raw dumps pc notes).notes (invoked ++ [r.name])
      exact ⟨pc', notes', by simp [hrun, List.append_assoc]⟩
    · have he : e.isException = true := hr pc notes e hx
      obtain ⟨pc', notes', hrun⟩ := ih hrs (r.act raw dumps pc notes).processed
        ((r.act raw dumps pc notes).notes ++ [failureNote r.name e])
        (invoked ++ [r.name])
      exact ⟨pc', notes', by simp [he, hrun, List.append_assoc]⟩

/-- If every rule returns normally without touching the note list, the rule
loop completes with the note list unchanged. -/
theorem runRules_clean (raw : RawCrash) (dumps : RawDumps) :
    ∀ (rules : List Rule),
      (∀ r ∈ rules, ∀ p n, (r.act raw dumps p n).exc = none ∧
        (r.act raw dumps p n).notes = n) →
      ∀ pc notes invoked, ∃ pc',
        runRules raw dumps rules pc notes invoked =
          .ok (pc', notes, invoked ++ rules.map Rule.name) := by
  intro rules
  induction rules with
  | nil => intro _ pc notes invoked; exact ⟨pc, by simp [runRules]⟩
  | cons r rs ih =>
    intro h pc notes invoked
    have hr := h r (List.mem_cons_self r rs)
    have hrs := fun r' h' => h r' (List.mem_cons_of_mem r h')
    obtain ⟨pc', hrun⟩ := ih hrs (r.act raw dumps pc notes).processed
      notes (invoked ++ [r.name])
    refine ⟨pc', ?_⟩
    simp only [runRules, (hr pc notes).1, (hr pc notes).2]
    simpa [List.append_assoc] using hrun

/-- Splitting the rule loop at a list append. -/
theorem runRules_append (raw : RawCrash) (dumps : RawDumps) (rs1 rs2 : List Rule) :
    ∀ pc notes invoked,
      runRules raw dumps (rs1 ++ rs2) pc notes invoked =
        (match runRules raw dumps rs1 pc notes invoked with
         | .ok (pc', notes', inv') => runRules raw dumps rs2 pc' notes' inv'
         | .error e => .error e) := by
  induction rs1 with
  | nil => intro pc notes invoked; simp [runRules]
  | cons r rs ih =>
    intro pc notes invoked
    simp only [List.cons_append, runRules]
    rcases hx : (r.act raw dumps pc notes).exc with _ | e
    · exact ih _ _ _
    · rcases he : e.isException with _ | _
      · simp [he]
      · simp [he]
        exact ih _ _ _

/-- A field that no rule's `act` changes is unchanged by a completed rule
loop. -/
theorem runRules_ok_preserves (raw : RawCrash) (dumps : RawDumps)
    (f : ProcessedCrash → Option Timestamp) :
    ∀ (rules : List Rule),
      (∀ r ∈ rules, ∀ p n, f (r.act raw dumps p n).processed = f p) →
      ∀ pc notes invoked pc' notes' invoked',
        runRules raw dumps rules pc notes invoked =
          .ok (pc', notes', invoked') → f pc' = f pc := by
  intro rules
  induction rules with
  | nil =>
    intro _ pc notes invoked pc' notes' invoked' h
    simp [runRules] at h
    rw [h.1]
  | cons r rs ih =>
    intro hall pc notes invoked pc' notes' invoked' h
    have hr := hall r (List.mem_cons_self r rs)
    have hrs := fun r' h' => hall r' (List.mem_cons_of_mem r h')
    simp only [runRules] at h
    split at h
    · have := ih hrs _ _ _ _ _ _ h
      rw [this, hr pc notes]
    · split at h
      · have := ih hrs _ _ _ _ _ _ h
        rw [this, hr pc notes]
      · simp at h

/-- C1: for every pipeline, raw record containing a `uuid` field, dumps, and
processed record, if every exception raised by a rule's `act` is recoverable
(derives from `Exception`), then `process_crash` does not raise, every rule —
including every rule after a failing rule — is invoked in pipeline order, and
the returned record has `success == true` regardless of how many rules
failed. -/
theorem c1_recoverable_failures_isolated
    (config : Config) (rules : List Rule) (raw : RawCrash) (dumps : RawDumps)
    (pc : ProcessedCrash) (tStart tComplete : Timestamp) (u : String)
    (hu : raw.lookup "uuid" = some u)
    (hrec : ∀ r ∈ rules, ∀ p n e, (r.act raw dumps p n).exc = some e →
      e.isException = true) :
    ∃ pcf, process_crash config rules raw dumps pc tStart tComplete =
        .ok pcf (rules.map Rule.name) ∧ pcf.success = some true := by
  obtain ⟨pc', notes', hrun⟩ := runRules_all_recoverable raw dumps rules hrec
    (initForProcessing pc tStart) (seedNotes config pc) []
  refine ⟨{ pc' with
            success := some true
            processor_notes := some (String.intercalate "; "
              (notes' ++ originalNotes pc))
            completed_datetime := some tComplete
            completeddatetime := some tComplete }, ?_, rfl⟩
  simp only [process_crash, hu, hrun, List.nil_append]

/-- Witness for C1 at a concrete two-rule pipeline whose first rule fails. -/
theorem c1_witness :
    ∃ pcf, process_crash cfgA [raiseRule "RuleB" excKeyError, okRule "RuleA"]
        rawA [] {} "T1" "T2" = .ok pcf ["RuleB", "RuleA"] ∧
      pcf.success = some true := by
  have h := c1_recoverable_failures_isolated cfgA
    [raiseRule "RuleB" excKeyError, okRule "RuleA"] rawA [] {} "T1" "T2"
    "abc-123" rfl ?_
  · simpa [raiseRule, okRule] using h
  · intro r hr p n e he
    simp only [List.mem_cons, List.not_mem_nil, or_false] at hr
    rcases hr with h1 | h1 <;> subst h1
    · simp only [raiseRule, Option.some.injEq] at he
      rw [← he]
      rfl
    · simp [okRule] at he

/-- C5: for every invocation of `process_crash` that returns normally, given
that no rule writes the start-timestamp fields (the executor owns them), the
returned record's `started_datetime` equals its legacy duplicate
`startedDateTime`, and `completed_datetime` equals its legacy duplicate
`completeddatetime`. -/
theorem c5_timestamp_pairs_agree
    (config : Config) (rules : List Rule) (raw : RawCrash) (dumps : RawDumps)
    (pc pcf : ProcessedCrash) (tStart tComplete : Timestamp) (inv : List String)
    (hpres : ∀ r ∈ rules, ∀ p n,
      (r.act raw dumps p n).processed.started_datetime = p.started_datetime ∧
      (r.act raw dumps p n).processed.startedDateTime = p.startedDateTime)
    (hok : process_crash config rules raw dumps pc tStart tComplete = .ok pcf inv) :
    pcf.started_datetime = pcf.startedDateTime ∧
    pcf.completed_datetime = pcf.completeddatetime := by
  rcases hu : raw.lookup "uuid" with _ | u
  · simp only [process_crash, hu] at hok
    exact absurd hok (by simp)
  · simp only [process_crash, hu] at hok
    rcases hrun : runRules raw dumps rules (initForProcessing pc tStart)
        (seedNotes config pc) [] with ⟨e, pc1, inv1⟩ | ⟨pc1, notes1, inv1⟩
    · simp only [hrun] at hok
      exact absurd hok (by simp)
    · simp only [hrun, PCResult.ok.injEq] at hok
      obtain ⟨hpcf, hinv⟩ := hok
      subst hpcf
      have hs1 := runRules_ok_preserves raw dumps
        (fun p => p.started_datetime) rules
        (fun r hr p n => (hpres r hr p n).1) _ _ _ _ _ _ hrun
      have hs2 := runRules_ok_preserves raw dumps
        (fun p => p.startedDateTime) rules
        (fun r hr p n => (hpres r hr p n).2) _ _ _ _ _ _ hrun
      simp only at hs1 hs2
      refine ⟨?_, rfl⟩
      show pc1.started_datetime = pc1.startedDateTime
      rw [hs1, hs2]
      rfl

/-- Witness for C5 at a concrete one-rule run. -/
theorem c5_witness :
    ({ success := some true, started_datetime := some "T1",
       startedDateTime := some "T1", completed_datetime := some "T2",
       completeddatetime := some "T2",
       signature := some "EMPTY: crash failed to process",
       processor_notes := some "proc1; ProcessorPipeline",
       extra := [] } : ProcessedCrash).started_datetime =
      ({ success := some true, started_datetime := some "T1",
         startedDateTime := some "T1", completed_datetime := some "T2",
         completeddatetime := some "T2",
         signature := some "EMPTY: crash failed to process",
         processor_notes := some "proc1; ProcessorPipeline",
         extra := [] } : ProcessedCrash).startedDateTime ∧
    ({ success := some true, started_datetime := some "T1",
       startedDateTime := some "T1", completed_datetime := some "T2",
       completeddatetime := some "T2",
       signature := some "EMPTY: crash failed to process",
       processor_notes := some "proc1; ProcessorPipeline",
       extra := [] } : ProcessedCrash).completed_datetime =
      ({ success := some true, started_datetime := some "T1",
         startedDateTime := some "T1", completed_datetime := some "T2",
         completeddatetime := some "T2",
         signature := some "EMPTY: crash failed to process",
         processor_notes := some "proc1; ProcessorPipeline",
         extra := [] } : ProcessedCrash).completeddatetime := by
  refine c5_timestamp_pairs_agree cfgA [okRule "RuleA"] rawA [] {} _ "T1" "T2"
    ["RuleA"] ?_ ?_
  · intro r hr p n
    simp only [List.mem_cons, List.not_mem_nil, or_false] at hr
    subst hr
    exact ⟨rfl, rfl⟩
  · rfl

/-- C6: at the start of every `process_crash` invocation, before any rule is
applied, the executor sets `success` to `false`, sets the start timestamp and
its legacy duplicate, and sets `signature` to the sentinel string
`"EMPTY: crash failed to process"`; a probe rule placed first observes
exactly that initialized state. -/
theorem c6_initialization
    (config : Config) (raw : RawCrash) (dumps : RawDumps) (pc : ProcessedCrash)
    (tStart tComplete : Timestamp) (u : String)
    (hu : raw.lookup "uuid" = some u) :
    ∃ pcf, process_crash config [probeRule] raw dumps pc tStart tComplete =
        .ok pcf ["ProbeRule"] ∧
      pcf.processor_notes = some (String.intercalate "; "
        (seedNotes config pc ++ [probeNote (initForProcessing pc tStart)] ++
          originalNotes pc)) ∧
      (initForProcessing pc tStart).success = some false ∧
      (initForProcessing pc tStart).started_datetime = some tStart ∧
      (initForProcessing pc tStart).startedDateTime = some tStart ∧
      (initForProcessing pc tStart).signature =
        some "EMPTY: crash failed to process" := by
  have hrun : runRules raw dumps [probeRule] (initForProcessing pc tStart)
      (seedNotes config pc) [] =
      .ok (initForProcessing pc tStart,
        seedNotes config pc ++ [probeNote (initForProcessing pc tStart)],
        ["ProbeRule"]) := by
    simp [runRules, probeRule]
  refine ⟨{ initForProcessing pc tStart with
            success := some true
            processor_notes := some (String.intercalate "; "
              ((seedNotes config pc ++ [probeNote (initForProcessing pc tStart)]) ++
                originalNotes pc))
            completed_datetime := some tComplete
            completeddatetime := some tComplete }, ?_, ?_, rfl, rfl, rfl, rfl⟩
  · simp only [process_crash, hu, hrun]
  · simp [List.append_assoc]

/-- Witness for C6 at a concrete input. -/
theorem c6_witness :
    ∃ pcf, process_crash cfgA [probeRule] rawA [] {} "T1" "T2" =
        .ok pcf ["ProbeRule"] ∧
      pcf.processor_notes = some (String.intercalate "; "
        (seedNotes cfgA {} ++ [probeNote (initForProcessing {} "T1")] ++
          originalNotes {})) ∧
      (initForProcessing ({} : ProcessedCrash) "T1").success = some false ∧
      (initForProcessing ({} : ProcessedCrash) "T1").started_datetime =
        some "T1" ∧
      (initForProcessing ({} : ProcessedCrash) "T1").startedDateTime =
        some "T1" ∧
      (initForProcessing ({} : ProcessedCrash) "T1").signature =
        some "EMPTY: crash failed to process" :=
  c6_initialization cfgA rawA [] {} "T1" "T2" "abc-123" rfl

/-- C9: for every raw crash mapping without a `uuid` key, `process_crash`
raises a `KeyError` before any rule is applied (the outcome is the same for
every rule list), and at that point `success`, both start timestamps, and the
sentinel signature have already been written into the processed record. -/
theorem c9_missing_uuid_raises_after_init
    (config : Config) (rules : List Rule) (raw : RawCrash) (dumps : RawDumps)
    (pc : ProcessedCrash) (tStart tComplete : Timestamp)
    (hu : raw.lookup "uuid" = none) :
    process_crash config rules raw dumps pc tStart tComplete =
      .keyErrorUuid (initForProcessing pc tStart) ∧
    (∀ rules' : List Rule,
      process_crash config rules' raw dumps pc tStart tComplete =
        process_crash config rules raw dumps pc tStart tComplete) ∧
    (initForProcessing pc tStart).success = some false ∧
    (initForProcessing pc tStart).started_datetime = some tStart ∧
    (initForProcessing pc tStart).startedDateTime = some tStart ∧
    (initForProcessing pc tStart).signature =
      some "EMPTY: crash failed to process" := by
  have hmain : ∀ rs : List Rule,
      process_crash config rs raw dumps pc tStart tComplete =
        .keyErrorUuid (initForProcessing pc tStart) := by
    intro rs
    simp [process_crash, hu]
  exact ⟨hmain rules, fun rules' => by rw [hmain rules', hmain rules],
    rfl, rfl, rfl, rfl⟩

/-- Witness for C9 at a concrete uuid-less raw crash. -/
theorem c9_witness :
    process_crash cfgA [okRule "RuleA"] rawNoUuid [] {} "T1" "T2" =
      .keyErrorUuid (initForProcessing {} "T1") ∧
    (∀ rules' : List Rule,
      process_crash cfgA rules' rawNoUuid [] {} "T1" "T2" =
        process_crash cfgA [okRule "RuleA"] rawNoUuid [] {} "T1" "T2") ∧
    (initForProcessing ({} : ProcessedCrash) "T1").success = some false ∧
    (initForProcessing ({} : ProcessedCrash) "T1").started_datetime =
      some "T1" ∧
    (initForProcessing ({} : ProcessedCrash) "T1").startedDateTime =
      some "T1" ∧
    (initForProcessing ({} : ProcessedCrash) "T1").signature =
      some "EMPTY: crash failed to process" :=
  c9_missing_uuid_raises_after_init cfgA [okRule "RuleA"] rawNoUuid [] {}
    "T1" "T2" rfl

/-- C7: for every configuration, the ruleset built by `get_ruleset` has 34
rules; `SignatureGeneratorRule` occurs exactly once, at index 32, after every
normalization/enrichment rule; and `JitCrashCategorizeRule` occurs exactly
once, strictly after it, as the last rule (index 33 of 34). -/
theorem c7_ruleset_ordering (config : Config) :
    ((get_ruleset config).map RulesetEntry.name).length = 34 ∧
    ((get_ruleset config).map RulesetEntry.name).get? 32 =
      some "SignatureGeneratorRule" ∧
    ((get_ruleset config).map RulesetEntry.name).get? 33 =
      some "JitCrashCategorizeRule" ∧
    ((get_ruleset config).map RulesetEntry.name).count
      "SignatureGeneratorRule" = 1 ∧
    ((get_ruleset config).map RulesetEntry.name).count
      "JitCrashCategorizeRule" = 1 := by
  have h : (get_ruleset config).map RulesetEntry.name =
      ["DeNullRule", "DeNoneRule", "ConvertModuleSignatureInfoRule",
       "ProductRewrite", "FenixVersionRewriteRule", "ESRVersionRewrite",
       "PluginContentURL", "PluginUserComment", "IdentifierRule",
       "MinidumpSha256Rule", "BreakpadStackwalkerRule2015", "ProductRule",
       "UserDataRule", "EnvironmentRule", "PluginRule", "AddonsRule",
       "DatesAndTimesRule", "OutOfMemoryBinaryRule", "PHCRule",
       "JavaProcessRule", "MozCrashReasonRule", "CrashingThreadRule",
       "CPUInfoRule", "OSInfoRule", "BetaVersionRule", "ExploitablityRule",
       "FlashVersionRule", "OSPrettyVersionRule", "TopMostFilesRule",
       "ModulesInStackRule", "ThemePrettyNameRule", "MemoryReportExtraction",
       "SignatureGeneratorRule", "JitCrashCategorizeRule"] := rfl
  rw [h]
  refine ⟨rfl, rfl, rfl, ?_, ?_⟩ <;> decide

/-- C8: one call to `close()` on the pipeline invokes `close()` exactly once
on every constituent rule, in pipeline order, whatever the outcome of an
earlier `process_crash` invocation was. -/
theorem c8_close_once_per_rule
    (p : Pipeline) (raw : RawCrash) (dumps : RawDumps) (pc : ProcessedCrash)
    (tStart tComplete : Timestamp) (priorResult : PCResult)
    (_hprior : priorResult =
      process_crash p.config p.rules raw dumps pc tStart tComplete) :
    Pipeline.close p = p.rules.map Rule.name ∧
    (Pipeline.close p).length = p.rules.length ∧
    ((p.rules.map Rule.name).Nodup → ∀ nm ∈ p.rules.map Rule.name,
      (Pipeline.close p).count nm = 1) := by
  refine ⟨rfl, List.length_map _ _, ?_⟩
  intro hnd nm hm
  exact List.count_eq_one_of_mem hnd hm

/-- Witness for C8: a concrete two-rule pipeline, after a processing run in
which the second rule failed, still closes each rule exactly once. -/
theorem c8_witness :
    Pipeline.close pipeA = ["RuleA", "RuleB"] ∧
    (Pipeline.close pipeA).length = 2 ∧
    (Pipeline.close pipeA).count "RuleA" = 1 ∧
    (Pipeline.close pipeA).count "RuleB" = 1 := by
  have hmap : pipeA.rules.map Rule.name = ["RuleA", "RuleB"] := rfl
  obtain ⟨h1, h2, h3⟩ := c8_close_once_per_rule pipeA rawA [] {} "T1" "T2"
    (process_crash pipeA.config pipeA.rules rawA [] {} "T1" "T2") rfl
  refine ⟨by rw [h1, hmap], by rw [h2]; rfl, ?_, ?_⟩
  · exact h3 (by rw [hmap]; decide) "RuleA" (by rw [hmap]; decide)
  · exact h3 (by rw [hmap]; decide) "RuleB" (by rw [hmap]; decide)

/-- C10: constructing `ProcessorPipeline` with `rules` equal to an empty list
(falsy in Python, like the default `None`) produces the full default ruleset
from `get_ruleset`; the `rules` argument is honored only when non-empty. -/
theorem c10_empty_rules_fall_back_to_default (config : Config) :
    initRules config (some []) = get_ruleset config ∧
    initRules config none = get_ruleset config ∧
    (∀ rs : List RulesetEntry, rs ≠ [] → initRules config (some rs) = rs) := by
  refine ⟨rfl, rfl, ?_⟩
  intro rs h
  simp [initRules, h]

/-- Witness for C10 at a concrete configuration and rule list. -/
theorem c10_witness :
    initRules cfgA (some []) = get_ruleset cfgA ∧
    initRules cfgA none = get_ruleset cfgA ∧
    initRules cfgA (some [RulesetEntry.DeNullRule]) =
      [RulesetEntry.DeNullRule] := by
  obtain ⟨h1, h2, h3⟩ := c10_empty_rules_fall_back_to_default cfgA
  exact ⟨h1, h2, h3 _ (by simp)⟩

/-- C4: for a fresh run of a pipeline `pre ++ [rk] ++ post` in which exactly
`rk` raises a recoverable exception `e` (every other rule succeeds without
touching the note list), `process_crash` completes with `success == true` and
the final notes contain exactly one failure entry; that entry is
`"rule <rk name> failed: <exception class name>"`, which contains the
exception's class name and never depends on the exception's message. -/
theorem c4_exactly_one_failure_note
    (config : Config) (pre post : List Rule) (rk : Rule) (e : Exc)
    (raw : RawCrash) (dumps : RawDumps) (pc : ProcessedCrash)
    (tStart tComplete : Timestamp) (u : String)
    (hu : raw.lookup "uuid" = some u)
    (hfresh : pc.processor_notes = none)
    (hclean : ∀ r ∈ pre ++ post, ∀ p n,
      (r.act raw dumps p n).exc = none ∧ (r.act raw dumps p n).notes = n)
    (hk : ∀ p n, (rk.act raw dumps p n).exc = some e ∧
      (rk.act raw dumps p n).notes = n)
    (he : e.isException = true) :
    ∃ pcf, process_crash config (pre ++ rk :: post) raw dumps pc
        tStart tComplete = .ok pcf ((pre ++ rk :: post).map Rule.name) ∧
      pcf.success = some true ∧
      pcf.processor_notes = some (String.intercalate "; "
        [config.processor_name, "ProcessorPipeline", failureNote rk.name e]) ∧
      (config.processor_name ≠ failureNote rk.name e →
        ([config.processor_name, "ProcessorPipeline",
          failureNote rk.name e]).count (failureNote rk.name e) = 1) ∧
      failureNote rk.name e =
        "rule " ++ rk.name ++ " failed: " ++ e.className ∧
      (∀ m, failureNote rk.name { e with message := m } =
        failureNote rk.name e) := by
  have hseed : seedNotes config pc =
      [config.processor_name, "ProcessorPipeline"] := by
    simp [seedNotes, hfresh]
  have horig : originalNotes pc = [] := by simp [originalNotes, hfresh]
  have hcleanPre : ∀ r ∈ pre, ∀ p n, (r.act raw dumps p n).exc = none ∧
      (r.act raw dumps p n).notes = n :=
    fun r hr => hclean r (List.mem_append_left _ hr)
  have hcleanPost : ∀ r ∈ post, ∀ p n, (r.act raw dumps p n).exc = none ∧
      (r.act raw dumps p n).notes = n :=
    fun r hr => hclean r (List.mem_append_right _ hr)
  obtain ⟨pcA, hA⟩ := runRules_clean raw dumps pre hcleanPre
    (initForProcessing pc tStart) (seedNotes config pc) []
  obtain ⟨pcB, hB⟩ := runRules_clean raw dumps post hcleanPost
    ((rk.act raw dumps pcA (seedNotes config pc)).processed)
    (seedNotes config pc ++ [failureNote rk.name e])
    (([] ++ pre.map Rule.name) ++ [rk.name])
  have hstep : runRules raw dumps (rk :: post) pcA (seedNotes config pc)
      ([] ++ pre.map Rule.name) =
      .ok (pcB, seedNotes config pc ++ [failureNote rk.name e],
        ((([] ++ pre.map Rule.name) ++ [rk.name]) ++ post.map Rule.name)) := by
    simp only [runRules, (hk pcA (seedNotes config pc)).1,
      (hk pcA (seedNotes config pc)).2, he, if_true]
    exact hB
  have hfull : runRules raw dumps (pre ++ rk :: post)
      (initForProcessing pc tStart) (seedNotes config pc) [] =
      .ok (pcB, seedNotes config pc ++ [failureNote rk.name e],
        ((([] ++ pre.map Rule.name) ++ [rk.name]) ++ post.map Rule.name)) := by
    rw [runRules_append raw dumps pre (rk :: post) _ _ _, hA]
    exact hstep
  refine ⟨{ pcB with
            success := some true
            processor_notes := some (String.intercalate "; "
              ((seedNotes config pc ++ [failureNote rk.name e]) ++
                originalNotes pc))
            completed_datetime := some tComplete
            completeddatetime := some tComplete }, ?_, rfl, ?_, ?_, rfl,
        fun _ => rfl⟩
  · simp only [process_crash, hu, hfull]
    simp [List.map_append, List.append_assoc]
  · rw [hseed, horig]
    simp
  · intro hne
    have hpp := Ne.symm (failureNote_ne_processorPipeline rk.name e)
    simp [List.count_cons, hne, hpp]

/-- Witness for C4 at a concrete three-rule pipeline whose middle rule fails
with a `KeyError`. -/
theorem c4_witness :
    ∃ pcf, process_crash cfgA
        ([okRule "R1"] ++ raiseRule "R2" excKeyError :: [okRule "R3"])
        rawA [] {} "T1" "T2" =
        .ok pcf (([okRule "R1"] ++ raiseRule "R2" excKeyError ::
          [okRule "R3"]).map Rule.name) ∧
      pcf.success = some true ∧
      pcf.processor_notes = some (String.intercalate "; "
        [cfgA.processor_name, "ProcessorPipeline",
         failureNote (raiseRule "R2" excKeyError).name excKeyError]) ∧
      (cfgA.processor_name ≠
          failureNote (raiseRule "R2" excKeyError).name excKeyError →
        ([cfgA.processor_name, "ProcessorPipeline",
          failureNote (raiseRule "R2" excKeyError).name excKeyError]).count
          (failureNote (raiseRule "R2" excKeyError).name excKeyError) = 1) ∧
      failureNote (raiseRule "R2" excKeyError).name excKeyError =
        "rule " ++ (raiseRule "R2" excKeyError).name ++ " failed: " ++
          excKeyError.className ∧
      (∀ m, failureNote (raiseRule "R2" excKeyError).name
          { excKeyError with message := m } =
        failureNote (raiseRule "R2" excKeyError).name excKeyError) := by
  refine c4_exactly_one_failure_note cfgA [okRule "R1"] [okRule "R3"]
    (raiseRule "R2" excKeyError) excKeyError rawA [] {} "T1" "T2" "abc-123"
    rfl rfl ?_ ?_ rfl
  · intro r hr p n
    simp only [List.cons_append, List.nil_append, List.mem_cons,
      List.not_mem_nil, or_false] at hr
    rcases hr with h1 | h1 <;> subst h1 <;> exact ⟨rfl, rfl⟩
  · intro p n
    exact ⟨rfl, rfl⟩

/-- C2 counterexample: a rule that raises `MemoryError` — the claim's own
example of an unrecoverable resource-exhaustion fault — does not propagate
out of `process_crash`; the run returns normally with a failure note, because
`except Exception` catches `MemoryError` (an `Exception` subclass). -/
theorem c2_counterexample :
    process_crash cfgA
        [raiseRule "BreakpadStackwalkerRule2015" (memoryError "alloc failed")]
        rawA [] {} "T1" "T2" =
      .ok { success := some true, started_datetime := some "T1",
            startedDateTime := some "T1", completed_datetime := some "T2",
            completeddatetime := some "T2",
            signature := some "EMPTY: crash failed to process",
            processor_notes := some
              ("proc1; ProcessorPipeline; " ++
                "rule BreakpadStackwalkerRule2015 failed: MemoryError"),
            extra := [] }
        ["BreakpadStackwalkerRule2015"] ∧
    (match process_crash cfgA
        [raiseRule "BreakpadStackwalkerRule2015" (memoryError "alloc failed")]
        rawA [] {} "T1" "T2" with
     | .raised _ _ _ => true
     | _ => false) = false := by
  exact ⟨by decide, by decide⟩

/-- C2 amended: the executor's `except Exception` catches every `Exception`
subclass — including `MemoryError` — so only exceptions outside the
`Exception` hierarchy (`BaseException`-only ones such as
`KeyboardInterrupt`/`SystemExit`) propagate out of `process_crash`,
unmodified, aborting the remaining rules. -/
theorem c2_amended_only_non_exception_propagates
    (config : Config) (pre post : List Rule) (r : Rule) (e : Exc)
    (raw : RawCrash) (dumps : RawDumps) (pc : ProcessedCrash)
    (tStart tComplete : Timestamp) (u : String)
    (hu : raw.lookup "uuid" = some u)
    (hpre : ∀ r' ∈ pre, ∀ p n e', (r'.act raw dumps p n).exc = some e' →
      e'.isException = true)
    (hr : ∀ p n, (r.act raw dumps p n).exc = some e)
    (he : e.isException = false) :
    ∃ pcx, process_crash config (pre ++ r :: post) raw dumps pc
        tStart tComplete =
      .raised e pcx (pre.map Rule.name ++ [r.name]) := by
  obtain ⟨pcA, notesA, hA⟩ := runRules_all_recoverable raw dumps pre hpre
    (initForProcessing pc tStart) (seedNotes config pc) []
  have hstep : runRules raw dumps (r :: post) pcA notesA
      ([] ++ pre.map Rule.name) =
      .error (e, (r.act raw dumps pcA notesA).processed,
        ([] ++ pre.map Rule.name) ++ [r.name]) := by
    simp [runRules, hr pcA notesA, he]
  have hfull : runRules raw dumps (pre ++ r :: post)
      (initForProcessing pc tStart) (seedNotes config pc) [] =
      .error (e, (r.act raw dumps pcA notesA).processed,
        ([] ++ pre.map Rule.name) ++ [r.name]) := by
    rw [runRules_append raw dumps pre (r :: post) _ _ _, hA]
    exact hstep
  refine ⟨(r.act raw dumps pcA notesA).processed, ?_⟩
  simp only [process_crash, hu, hfull, List.nil_append]

/-- Witness for the amended C2: a `KeyboardInterrupt` raised by the second
rule propagates unmodified even though the first rule failed recoverably, and
the third rule is never invoked. -/
theorem c2_amended_witness :
    ∃ pcx, process_crash cfgA
        ([raiseRule "R1" excKeyError] ++
          raiseRule "KillRule" keyboardInterrupt :: [okRule "R3"])
        rawA [] {} "T1" "T2" =
      .raised keyboardInterrupt pcx
        (([raiseRule "R1" excKeyError].map Rule.name) ++ ["KillRule"]) := by
  refine c2_amended_only_non_exception_propagates cfgA
    [raiseRule "R1" excKeyError] [okRule "R3"]
    (raiseRule "KillRule" keyboardInterrupt) keyboardInterrupt rawA [] {}
    "T1" "T2" "abc-123" rfl ?_ ?_ rfl
  · intro r' hr' p n e' he'
    simp only [List.mem_cons, List.not_mem_nil, or_false] at hr'
    subst hr'
    simp only [raiseRule, Option.some.injEq] at he'
    rw [← he']
    rfl
  · intro p n
    rfl

/-- C3 counterexample: with prior notes `"A; B"` and second rule failing with
a `KeyError`, the final notes string is not `"rule R2 failed: KeyError; A; B"`
as the claim predicts — it also carries the seeded processor/pipeline
identity entries and the `"earlier processing"` marker before the failure
note. -/
theorem c3_counterexample :
    (match process_crash cfgA c3Rules rawA [] pcReprocessed "T1" "T2" with
     | .ok pcf _ => pcf.processor_notes
     | _ => none) =
      some ("proc1; ProcessorPipeline; earlier processing: Unknown Date; " ++
        "rule R2 failed: KeyError; A; B") ∧
    some ("proc1; ProcessorPipeline; earlier processing: Unknown Date; " ++
        "rule R2 failed: KeyError; A; B") ≠
      some "rule R2 failed: KeyError; A; B" := by
  exact ⟨by decide, by decide⟩

/-- C3 amended: for a reprocessing run whose record carries
`processor_notes == "A; B"` and whose second rule alone fails recoverably,
the final notes string is the current run's notes — the seeded
processor-name and pipeline-class entries, the `"earlier processing: ..."`
marker, then the rule-2 failure note — followed by the prior entries `A`,
`B`, split out of the old string and re-appended verbatim at the end. -/
theorem c3_amended_prior_notes_reappended
    (config : Config) (r1 rk : Rule) (post : List Rule) (e : Exc)
    (raw : RawCrash) (dumps : RawDumps) (pc : ProcessedCrash)
    (tStart tComplete : Timestamp) (u : String)
    (hu : raw.lookup "uuid" = some u)
    (hnotes : pc.processor_notes = some "A; B")
    (hclean : ∀ r ∈ [r1] ++ post, ∀ p n,
      (r.act raw dumps p n).exc = none ∧ (r.act raw dumps p n).notes = n)
    (hk : ∀ p n, (rk.act raw dumps p n).exc = some e ∧
      (rk.act raw dumps p n).notes = n)
    (he : e.isException = true) :
    ∃ pcf, process_crash config (r1 :: rk :: post) raw dumps pc
        tStart tComplete = .ok pcf ((r1 :: rk :: post).map Rule.name) ∧
      pcf.processor_notes = some (String.intercalate "; "
        [config.processor_name, "ProcessorPipeline",
         "earlier processing: " ++ pc.started_datetime.getD "Unknown Date",
         failureNote rk.name e, "A", "B"]) := by
  have hseed : seedNotes config pc =
      [config.processor_name, "ProcessorPipeline",
       "earlier processing: " ++ pc.started_datetime.getD "Unknown Date"] := by
    simp [seedNotes, hnotes]
  have horig : originalNotes pc = ["A", "B"] := by
    simp only [originalNotes, hnotes]
    decide
  have hcleanPre : ∀ r ∈ [r1], ∀ p n, (r.act raw dumps p n).exc = none ∧
      (r.act raw dumps p n).notes = n :=
    fun r hr => hclean r (List.mem_append_left _ hr)
  have hcleanPost : ∀ r ∈ post, ∀ p n, (r.act raw dumps p n).exc = none ∧
      (r.act raw dumps p n).notes = n :=
    fun r hr => hclean r (List.mem_append_right _ hr)
  obtain ⟨pcA, hA⟩ := runRules_clean raw dumps [r1] hcleanPre
    (initForProcessing pc tStart) (seedNotes config pc) []
  obtain ⟨pcB, hB⟩ := runRules_clean raw dumps post hcleanPost
    ((rk.act raw dumps pcA (seedNotes config pc)).processed)
    (seedNotes config pc ++ [failureNote rk.name e])
    (([] ++ [r1].map Rule.name) ++ [rk.name])
  have hstep : runRules raw dumps (rk :: post) pcA (seedNotes config pc)
      ([] ++ [r1].map Rule.name) =
      .ok (pcB, seedNotes config pc ++ [failureNote rk.name e],
        ((([] ++ [r1].map Rule.name) ++ [rk.name]) ++ post.map Rule.name)) := by
    simp only [runRules, (hk pcA (seedNotes config pc)).1,
      (hk pcA (seedNotes config pc)).2, he, if_true]
    exact hB
  have hfull : runRules raw dumps (r1 :: rk :: post)
      (initForProcessing pc tStart) (seedNotes config pc) [] =
      .ok (pcB, seedNotes config pc ++ [failureNote rk.name e],
        ((([] ++ [r1].map Rule.name) ++ [rk.name]) ++ post.map Rule.name)) := by
    have hsplit : r1 :: rk :: post = [r1] ++ rk :: post := rfl
    rw [hsplit, runRules_append raw dumps [r1] (rk :: post) _ _ _, hA]
    exact hstep
  refine ⟨{ pcB with
            success := some true
            processor_notes := some (String.intercalate "; "
              ((seedNotes config pc ++ [failureNote rk.name e]) ++
                originalNotes pc))
            completed_datetime := some tComplete
            completeddatetime := some tComplete }, ?_, ?_⟩
  · simp only [process_crash, hu, hfull]
    simp [List.map_append, List.append_assoc]
  · rw [hseed, horig]
    simp

/-- Witness for the amended C3 at a concrete reprocessed record and three-rule
pipeline whose second rule fails with a `KeyError`. -/
theorem c3_amended_witness :
    ∃ pcf, process_crash cfgA
        (okRule "R1" :: raiseRule "R2" excKeyError :: [okRule "R3"])
        rawA [] pcReprocessed "T1" "T2" =
        .ok pcf ((okRule "R1" :: raiseRule "R2" excKeyError ::
          [okRule "R3"]).map Rule.name) ∧
      pcf.processor_notes = some (String.intercalate "; "
        [cfgA.processor_name, "ProcessorPipeline",
         "earlier processing: " ++
           pcReprocessed.started_datetime.getD "Unknown Date",
         failureNote (raiseRule "R2" excKeyError).name excKeyError,
         "A", "B"]) := by
  refine c3_amended_prior_notes_reappended cfgA (okRule "R1")
    (raiseRule "R2" excKeyError) [okRule "R3"] excKeyError rawA []
    pcReprocessed "T1" "T2" "abc-123" rfl rfl ?_ ?_ rfl
  · intro r hr p n
    simp only [List.cons_append, List.nil_append, List.mem_cons,
      List.not_mem_nil, or_false] at hr
    rcases hr with h1 | h1 <;> subst h1 <;> exact ⟨rfl, rfl⟩
  · intro p n
    exact ⟨rfl, rfl⟩
